/-
Verification of the qzonme quiz server against its natural-language
specification.

This file gives a shallow embedding of the quiz lifecycle and
answer-verification subsystem: the answer verifier and the quiz read,
create, attempt-recording and verification route handlers from
src/server/routes.ts, the insert schemas from src/shared/schema.ts, and
the retention sweeper (cleanupExpiredQuizzes). JavaScript strings are
modelled as Lean strings with ASCII-faithful toLowerCase and trim;
JavaScript exceptions are modelled with Except/Option; the outcome of
JSON.parse on a stored text column is modelled as a sum of a parse error
and a parsed JSON value.
-/
import Mathlib

namespace QzonMe

/-! ## JavaScript string primitives

The server normalizes strings with `s.toLowerCase().trim()`. We model
`toLowerCase` character by character (ASCII letters, which is what quiz
answers and the placeholder name use) and `trim` as removal of leading
and trailing whitespace characters. -/

/-- ASCII lowercase of one character, as done by String.prototype.toLowerCase
on ASCII input. -/
def lowerChar (c : Char) : Char :=
  match c with
  | 'A' => 'a' | 'B' => 'b' | 'C' => 'c' | 'D' => 'd' | 'E' => 'e'
  | 'F' => 'f' | 'G' => 'g' | 'H' => 'h' | 'I' => 'i' | 'J' => 'j'
  | 'K' => 'k' | 'L' => 'l' | 'M' => 'm' | 'N' => 'n' | 'O' => 'o'
  | 'P' => 'p' | 'Q' => 'q' | 'R' => 'r' | 'S' => 's' | 'T' => 't'
  | 'U' => 'u' | 'V' => 'v' | 'W' => 'w' | 'X' => 'x' | 'Y' => 'y'
  | 'Z' => 'z'
  | c => c

/-- Whitespace characters removed by String.prototype.trim (the ASCII ones). -/
def isWsChar (c : Char) : Bool :=
  c == ' ' || c == '\t' || c == '\n' || c == '\r'

/-- Removal of leading and trailing whitespace from a character list. -/
def trimChars (cs : List Char) : List Char :=
  ((cs.dropWhile isWsChar).reverse.dropWhile isWsChar).reverse

/-- Model of `s.toLowerCase()`. -/
def jsToLowerCase (s : String) : String :=
  ⟨s.data.map lowerChar⟩

/-- Model of `s.trim()`. -/
def jsTrim (s : String) : String :=
  ⟨trimChars s.data⟩

/-- Model of `s.toLowerCase().trim()`, the normalization the verify handler
applies to every compared string. -/
def normalize (s : String) : String :=
  jsTrim (jsToLowerCase s)

/-- Whether `pat` starts the list `cs`. -/
def startsWithSeq : List Char → List Char → Bool
  | _, [] => true
  | [], _ :: _ => false
  | a :: as, b :: bs => a == b && startsWithSeq as bs

/-- Whether `pat` occurs contiguously inside `cs`. -/
def hasSubSeq (pat : List Char) : List Char → Bool
  | [] => startsWithSeq [] pat
  | c :: rest => startsWithSeq (c :: rest) pat || hasSubSeq pat rest

/-- Whether the string `pat` occurs inside the string `s`. -/
def containsText (s pat : String) : Bool :=
  hasSubSeq pat.data s.data

/-! ## Answer verifier (routes.ts, POST /api/questions/:questionId/verify)

The handler branches on the shape of the submitted answer:
an array is compared by exact normalized set equality,
a string by matching any normalized entry of the correct-answer set. -/

/-- Model of the multi-answer set comparison of routes.ts lines 461 to 464:
`new Set` of the normalized candidate and of the normalized correct answers,
then size equality plus membership of every candidate element. A JavaScript
Set built from an array holds exactly the distinct elements, so it is
modelled by `List.dedup`. Both argument lists are already normalized. -/
def setEqCheck (userNorms correctNorms : List String) : Bool :=
  (userNorms.dedup.length == correctNorms.dedup.length) &&
    userNorms.dedup.all (fun a => correctNorms.dedup.contains a)

/-- Multi-answer verification on raw strings: normalize both sides, then the
set comparison. -/
def verifyMulti (userAnswer correctAnswers : List String) : Bool :=
  setEqCheck (userAnswer.map normalize) (correctAnswers.map normalize)

/-- Model of the single-answer comparison of routes.ts lines 467 to 470:
the normalized candidate must equal some normalized correct answer
(`correctAnswers.some`). -/
def verifySingle (userAnswer : String) (correctAnswers : List String) : Bool :=
  correctAnswers.any (fun correct => normalize correct == normalize userAnswer)

/-! ## Stored JSON model

The `correct_answers` column is TEXT holding JSON (schema.ts line 38).
The verify handler obtains `correctAnswers` with `JSON.parse` (routes.ts
line 452), which either throws (malformed text) or yields a JSON value.
Only strings and arrays are distinguished because only the string methods
`toLowerCase`/`trim` and the array methods `map`/`some` are applied;
every other value lacks all of them. -/

/-- A parsed JSON value, as far as the verify handler can observe it. -/
inductive JsonValue where
  | jstr (s : String)
  | jarr (elems : List JsonValue)
  | jother

/-- Outcome of `JSON.parse` on the stored `correct_answers` text:
either the parse throws or it yields a value. -/
inductive StoredField where
  | parseError
  | parsed (v : JsonValue)

/-- Evaluation of `x.toLowerCase().trim()` on a dynamic JSON value:
succeeds with the normalization on a string, throws a TypeError
on anything else. -/
def jsNormalizeDyn : JsonValue → Except Unit String
  | .jstr s => .ok (normalize s)
  | _ => .error ()

/-- Evaluation of `elems.map (c => c.toLowerCase().trim())`: the callback
runs on every element, so one non-string anywhere throws. -/
def mapNormalizeDyn : List JsonValue → Except Unit (List String)
  | [] => .ok []
  | v :: vs =>
    match jsNormalizeDyn v with
    | .error e => .error e
    | .ok s =>
      match mapNormalizeDyn vs with
      | .error e => .error e
      | .ok rest => .ok (s :: rest)

/-- Evaluation of `elems.some (c => c.toLowerCase().trim() === n)`: the
callback runs left to right and stops at the first match, so a non-string
element throws only when no earlier element matched. -/
def someMatchesDyn (n : String) : List JsonValue → Except Unit Bool
  | [] => .ok false
  | v :: vs =>
    match jsNormalizeDyn v with
    | .error e => .error e
    | .ok s => if s == n then .ok true else someMatchesDyn n vs

/-- The answer payload accepted by the verify handler: a string or an array
of strings (the zod union at routes.ts line 435). -/
inductive UserAnswer where
  | single (s : String)
  | multi (xs : List String)
  deriving DecidableEq

/-- Outcome of the verification core once the question is at hand:
a 200 response with the `isCorrect` flag, or the 500 produced by the
surrounding catch when anything throws. -/
inductive VerifyOutcome where
  | ok (isCorrect : Bool)
  | serverError
  deriving DecidableEq

/-- Model of routes.ts lines 448 to 483, from the stored `correctAnswers`
field on: `JSON.parse` throwing, a non-array lacking `map`/`some`, or a
non-string array element lacking `toLowerCase` all land in the catch
block, which answers 500. -/
def verifyAnswerCore (stored : StoredField) (ans : UserAnswer) : VerifyOutcome :=
  match stored with
  | .parseError => .serverError
  | .parsed v =>
    match ans with
    | .multi xs =>
      match v with
      | .jarr elems =>
        match mapNormalizeDyn elems with
        | .error _ => .serverError
        | .ok correctNorms => .ok (setEqCheck (xs.map normalize) correctNorms)
      | _ => .serverError
    | .single s =>
      match v with
      | .jarr elems =>
        match someMatchesDyn (normalize s) elems with
        | .error _ => .serverError
        | .ok b => .ok b
      | _ => .serverError

/-! ## Question records and the verify route handler -/

/-- A stored question row (schema.ts lines 32 to 42); `correctAnswers`
carries the JSON.parse outcome of its TEXT value. -/
structure Question where
  id : Int
  quizId : Int
  text : String
  type : String
  options : String
  correctAnswers : StoredField
  hint : Option String
  order : Int
  imageUrl : Option String

/-- Value of one hexadecimal digit character, `none` on anything else. -/
def hexDigitVal (c : Char) : Option Nat :=
  if '0' ≤ c ∧ c ≤ '9' then some (c.toNat - 48)
  else if 'a' ≤ c ∧ c ≤ 'f' then some (c.toNat - 87)
  else if 'A' ≤ c ∧ c ≤ 'F' then some (c.toNat - 55)
  else none

/-- Value of one decimal digit character, `none` on anything else. -/
def decDigitVal (c : Char) : Option Nat :=
  if '0' ≤ c ∧ c ≤ '9' then some (c.toNat - 48) else none

/-- Accumulate the longest digit run readable by `dv`; `none` when no digit
at all was read. -/
def readDigits (dv : Char → Option Nat) (base : Nat) :
    Option Nat → List Char → Option Nat
  | acc, [] => acc
  | acc, c :: rest =>
    match dv c with
    | none => acc
    | some d => readDigits dv base (some ((acc.getD 0) * base + d)) rest

/-- Model of JavaScript `parseInt(s)` (radix unspecified): skip leading
whitespace, optional sign, then a hexadecimal literal after `0x`/`0X` or a
longest run of decimal digits; NaN (here `none`) when no digit is read. -/
def jsParseInt (s : String) : Option Int :=
  let cs := s.data.dropWhile isWsChar
  let signAndRest : Int × List Char :=
    match cs with
    | '-' :: rest => (-1, rest)
    | '+' :: rest => (1, rest)
    | _ => (1, cs)
  let sign := signAndRest.1
  let body := signAndRest.2
  let magnitude : Option Nat :=
    match body with
    | '0' :: 'x' :: rest => readDigits hexDigitVal 16 none rest
    | '0' :: 'X' :: rest => readDigits hexDigitVal 16 none rest
    | _ => readDigits decDigitVal 10 none body
  magnitude.map (fun n => sign * (n : Int))

/-- Responses of the verify route (routes.ts lines 423 to 492). -/
inductive VerifyResponse where
  | badRequest
  | notFound
  | ok (isCorrect : Bool)
  | serverError
  deriving DecidableEq

/-- Model of the whole POST /api/questions/:questionId/verify handler:
parseInt the path id (NaN gives 400), look the question up by id (missing
gives 404), then run the verification core. -/
def verifyHandler (store : List Question) (questionIdParam : String)
    (ans : UserAnswer) : VerifyResponse :=
  match jsParseInt questionIdParam with
  | none => .badRequest
  | some qid =>
    match store.find? (fun q => q.id == qid) with
    | none => .notFound
    | some q =>
      match verifyAnswerCore q.correctAnswers ans with
      | .ok b => .ok b
      | .serverError => .serverError

/-! ## Quizzes, expiry, and the quiz read handlers

Timestamps: `created_at` is a TEXT ISO timestamp; comparisons on it
(string order of ISO strings, Date arithmetic) are chronological, so time
is modelled as milliseconds since the epoch (`Nat`). -/

/-- A stored quiz row (schema.ts lines 16 to 24). -/
structure Quiz where
  id : Int
  creatorId : Int
  creatorName : String
  accessCode : String
  urlSlug : String
  dashboardToken : String
  createdAt : Nat

/-- Seven days in milliseconds. -/
def sevenDaysMs : Nat := 7 * 24 * 60 * 60 * 1000

/-- Modelled from the spec: `storage.isQuizExpired` lives in
src/server/storage.ts, which is not among the available sources; spec
section 4.2 defines it as the pure function
`isExpired(quiz, now) = now > quiz.createdAt + 7 days`. -/
def isQuizExpired (quiz : Quiz) (now : Nat) : Bool :=
  now > quiz.createdAt + sevenDaysMs

/-- An HTTP response of the quiz read routes: the status, the json body
fields `message`, `expired` (absent modelled as false) and `detail`, and
the returned quiz for 200 responses. -/
structure HttpResponse where
  status : Nat
  message : String
  expired : Bool := false
  detail : Option String := none
  quizBody : Option Quiz := none

/-- The 404 body shared by all four quiz read handlers
(`res.status(404).json({ message: "Quiz not found" })`). -/
def notFoundQuizResp : HttpResponse :=
  { status := 404, message := "Quiz not found" }

/-- The 410 body shared by all four quiz read handlers. -/
def expiredQuizResp : HttpResponse :=
  { status := 410
    message := "Quiz expired"
    expired := true
    detail := some "This quiz has expired. Quizzes are available for 7 days after creation." }

/-- The not-found / expired / ok dispatch every quiz read handler performs
after its lookup (routes.ts lines 159 to 175, 191 to 217, 232 to 248,
268 to 285). -/
def respondQuiz (found : Option Quiz) (now : Nat) : HttpResponse :=
  match found with
  | none => notFoundQuizResp
  | some q =>
    if isQuizExpired q now then expiredQuizResp
    else { status := 200, message := "", quizBody := some q }

/-- Modelled from the spec: `storage.getQuizByAccessCode` is part of the
missing storage.ts; the persistence layer of spec section 2 stores quizzes
and looks them up by their unique access code, modelled as a list search. -/
def getQuizByAccessCodeHandler (store : List Quiz) (accessCode : String)
    (now : Nat) : HttpResponse :=
  respondQuiz (store.find? (fun q => q.accessCode == accessCode)) now

/-- The quiz the slug route works on: the exact lookup (the spec-modelled
`storage.getQuizByUrlSlug` of the missing storage.ts), then the
case-insensitive fallback scan over all quizzes (routes.ts lines 188 to
204). -/
def slugLookup (store : List Quiz) (urlSlug : String) : Option Quiz :=
  match store.find? (fun q => q.urlSlug == urlSlug) with
  | some q => some q
  | none =>
    store.find? (fun q => jsToLowerCase q.urlSlug == jsToLowerCase urlSlug)

/-- Model of GET /api/quizzes/slug/:urlSlug (routes.ts lines 183 to 222). -/
def getQuizBySlugHandler (store : List Quiz) (urlSlug : String)
    (now : Nat) : HttpResponse :=
  respondQuiz (slugLookup store urlSlug) now

/-- Model of GET /api/quizzes/dashboard/:token (routes.ts lines 225 to 253),
with the spec-modelled `storage.getQuizByDashboardToken` lookup. -/
def getQuizByDashboardHandler (store : List Quiz) (token : String)
    (now : Nat) : HttpResponse :=
  respondQuiz (store.find? (fun q => q.dashboardToken == token)) now

/-- Model of GET /api/quizzes/:quizId (routes.ts lines 256 to 290):
`parseInt` on the path segment, 400 on NaN, then lookup by id and the
shared dispatch. -/
def getQuizByIdHandler (store : List Quiz) (quizIdParam : String)
    (now : Nat) : HttpResponse :=
  match jsParseInt quizIdParam with
  | none => { status := 400, message := "Invalid quiz ID" }
  | some qid => respondQuiz (store.find? (fun q => q.id == qid)) now

/-- The dispatch contract of a quiz read route over its lookup: an empty
lookup answers the 404 body, an expired hit answers the 410 body, a live
hit answers 200, and the statuses 410 and 404 each occur in exactly those
cases. -/
def ReadDispatchOk (handler : List Quiz → String → Nat → HttpResponse)
    (lookup : List Quiz → String → Option Quiz) : Prop :=
  ∀ (store : List Quiz) (key : String) (now : Nat),
    (lookup store key = none → handler store key now = notFoundQuizResp) ∧
    (∀ q, lookup store key = some q → isQuizExpired q now = true →
      handler store key now = expiredQuizResp) ∧
    (∀ q, lookup store key = some q → isQuizExpired q now = false →
      (handler store key now).status = 200) ∧
    ((handler store key now).status = 410 ↔
      ∃ q, lookup store key = some q ∧ isQuizExpired q now = true) ∧
    ((handler store key now).status = 404 ↔ lookup store key = none)

/-! ## Quiz creation (routes.ts, POST /api/quizzes) -/

/-- The body accepted by `insertQuizSchema` (schema.ts lines 26 to 29):
every quiz column except `id` and `createdAt`. -/
structure InsertQuiz where
  creatorId : Int
  creatorName : String
  accessCode : String
  urlSlug : String
  dashboardToken : String

/-- Result of the creation handler: a 400 with its json `message` and
`error` code, or a 201 with the quiz handed to `storage.createQuiz`
persisted. -/
inductive CreateQuizResult where
  | badRequest (message : String) (errorCode : String)
  | created (quizData : InsertQuiz)

/-- Model of routes.ts lines 104 to 138 on a body that passed the schema:
an empty or whitespace-only creator name answers 400 EMPTY_CREATOR_NAME;
a creator name lowercasing to "emydan" answers 400
DEFAULT_CREATOR_NAME_USED; otherwise the quiz is persisted (201). The
JavaScript falsiness test `!quizData.creatorName` on a string only adds
the empty string, which the trim test already catches. -/
def createQuizHandler (quizData : InsertQuiz) : CreateQuizResult :=
  if jsTrim quizData.creatorName == "" then
    .badRequest "Creator name cannot be empty" "EMPTY_CREATOR_NAME"
  else if jsToLowerCase quizData.creatorName == "emydan" then
    .badRequest "Cannot use default creator name. Please enter your own name."
      "DEFAULT_CREATOR_NAME_USED"
  else
    .created quizData

/-- The quizzes persisted by one creation request: none on a 400. -/
def persistedQuizzes : CreateQuizResult → List InsertQuiz
  | .badRequest _ _ => []
  | .created q => [q]

/-! ## Attempt recording (routes.ts, POST /api/quiz-attempts) -/

/-- The body accepted by `insertQuizAttemptSchema` (schema.ts lines 60 to
63): every quiz_attempts column except `id` and `completedAt` — the
client-submitted `score` included. -/
structure InsertQuizAttempt where
  quizId : Int
  userAnswerId : Int
  userName : String
  score : Int
  totalQuestions : Int
  answers : String

/-- A stored quiz_attempts row. -/
structure QuizAttempt where
  id : Int
  quizId : Int
  userAnswerId : Int
  userName : String
  score : Int
  totalQuestions : Int
  answers : String
  completedAt : Nat

/-- Model of routes.ts lines 329 to 343 together with the spec-modelled
persistence insert. Modelled from the spec: `storage.createQuizAttempt`
lives in the missing storage.ts; the persistence layer of spec section 2
"stores quizzes, questions, and attempts", so the insert stores the
validated body as a row, the database assigning `id` and `completedAt`.
The handler itself passes `attemptData` through unchanged. -/
def recordAttemptHandler (attemptData : InsertQuizAttempt) (nextId : Int)
    (now : Nat) : QuizAttempt :=
  { id := nextId
    quizId := attemptData.quizId
    userAnswerId := attemptData.userAnswerId
    userName := attemptData.userName
    score := attemptData.score
    totalQuestions := attemptData.totalQuestions
    answers := attemptData.answers
    completedAt := now }

/-! ## Retention sweeper (cleanupExpiredQuizzes)

The sweeper reads all quizzes older than the cutoff, best-effort cleans
their images, then deletes attempts, questions and quizzes scoped to the
collected ids, all inside one try/catch that converts any thrown error
into a `{success: false, error}` result. Failures of the database calls
and of the external image cleanup are modelled by injected fault
parameters; the `cloudinary` module is external, so the image step is
modelled only by whether its call throws (the sweeper catches that
locally and continues). -/

/-- The three tables the sweeper touches. -/
structure StoreState where
  quizzes : List Quiz
  questions : List Question
  attempts : List QuizAttempt

/-- A database or external operation performed by one sweep cycle, in
order. The image step records whether its local catch fired. -/
inductive CleanupStep where
  | imageCleanup (quizIds : List Int) (ok : Bool)
  | deleteAttempts (quizIds : List Int)
  | deleteQuestions (quizIds : List Int)
  | deleteQuizzes (quizIds : List Int)

/-- The structured result of `cleanupExpiredQuizzes`: the early-exit
success (`{success: true, message, count: 0}`), the full success
(`{success: true, message, count, quizIds}`), or the catch-all failure
(`{success: false, error, message}`). -/
inductive CleanupResult where
  | successNone
  | success (count : Nat) (quizIds : List Int)
  | failure (error : String)

/-- Which database call of the cycle throws, when one does. -/
inductive DbFault where
  | queryFault
  | attemptsFault
  | questionsFault
  | quizzesFault
  deriving DecidableEq

/-- Everything one sweep cycle produces: the table state it leaves, the
structured result it returns, and the operations it performed. -/
structure CleanupOutcome where
  state : StoreState
  result : CleanupResult
  trace : List CleanupStep

/-- Model of getRetentionCutoffDate: seven days before now. -/
def retentionCutoff (now : Nat) : Nat := now - sevenDaysMs

/-- Model of `cleanupExpiredQuizzes` (the sweeper source, lines 26 to 96).
`imageFault` makes the `cleanupOldQuizImages` call throw (caught locally,
lines 53 to 59); `dbFault` makes the named database call throw, landing in
the outer catch which returns the failure result. ISO-string comparison
`createdAt < cutoff` is chronological, hence `Nat` order. -/
def cleanupExpiredQuizzes (imageFault : Bool) (dbFault : Option DbFault)
    (now : Nat) (st : StoreState) : CleanupOutcome :=
  if dbFault = some .queryFault then
    { state := st, result := .failure "query failed", trace := [] }
  else
    let cutoff := retentionCutoff now
    let expiredQuizzes := st.quizzes.filter (fun q => q.createdAt < cutoff)
    if expiredQuizzes.isEmpty then
      { state := st, result := .successNone, trace := [] }
    else
      let expiredQuizIds := expiredQuizzes.map (fun q => q.id)
      let trace0 := [CleanupStep.imageCleanup expiredQuizIds (!imageFault)]
      if dbFault = some .attemptsFault then
        { state := st, result := .failure "attempt delete failed", trace := trace0 }
      else
        let st1 := { st with
          attempts := st.attempts.filter (fun a => !expiredQuizIds.contains a.quizId) }
        let trace1 := trace0 ++ [CleanupStep.deleteAttempts expiredQuizIds]
        if dbFault = some .questionsFault then
          { state := st1, result := .failure "question delete failed", trace := trace1 }
        else
          let st2 := { st1 with
            questions := st1.questions.filter (fun q => !expiredQuizIds.contains q.quizId) }
          let trace2 := trace1 ++ [CleanupStep.deleteQuestions expiredQuizIds]
          if dbFault = some .quizzesFault then
            { state := st2, result := .failure "quiz delete failed", trace := trace2 }
          else
            let st3 := { st2 with
              quizzes := st2.quizzes.filter (fun q => !expiredQuizIds.contains q.id) }
            { state := st3
              result := .success expiredQuizzes.length expiredQuizIds
              trace := trace2 ++ [CleanupStep.deleteQuizzes expiredQuizIds] }

/-! ## Helper lemmas -/

/-- The JavaScript Set comparison decides exactly equality of the two
underlying finite sets of strings. -/
theorem setEqCheck_iff_toFinset_eq (a b : List String) :
    setEqCheck a b = true ↔ a.toFinset = b.toFinset := by
  unfold setEqCheck
  rw [Bool.and_eq_true, beq_iff_eq, List.all_eq_true]
  constructor
  · rintro ⟨hlen, hall⟩
    have hsub : a.toFinset ⊆ b.toFinset := by
      intro x hx
      rw [List.mem_toFinset] at hx ⊢
      have hx2 : x ∈ a.dedup := List.mem_dedup.mpr hx
      exact List.mem_dedup.mp (List.elem_iff.mp (hall x hx2))
    refine Finset.eq_of_subset_of_card_le hsub ?_
    rw [List.card_toFinset, List.card_toFinset, hlen]
  · intro heq
    refine ⟨?_, ?_⟩
    · rw [← List.card_toFinset, ← List.card_toFinset, heq]
    · intro x hx
      have hx2 : x ∈ a := List.mem_dedup.mp hx
      have hx3 : x ∈ b := by
        rw [← List.mem_toFinset, ← heq, List.mem_toFinset]
        exact hx2
      exact List.elem_iff.mpr (List.mem_dedup.mpr hx3)

/-- C2: for every multi-answer verification call the result is true iff the
normalized candidate set equals the normalized correct-answer set; a
candidate missing one correct element is false, one extra element is
false, and order is irrelevant (correct "A","B": candidate "A" is false,
candidate "A","B","C" is false, candidate "B","A" is true). -/
theorem verify_multi_set_equality :
    (∀ (userAnswer correctAnswers : List String),
      verifyMulti userAnswer correctAnswers = true ↔
        (userAnswer.map normalize).toFinset =
          (correctAnswers.map normalize).toFinset)
    ∧ verifyMulti ["A"] ["A", "B"] = false
    ∧ verifyMulti ["A", "B", "C"] ["A", "B"] = false
    ∧ verifyMulti ["B", "A"] ["A", "B"] = true := by
  refine ⟨?_, by decide, by decide, by decide⟩
  intro u c
  exact setEqCheck_iff_toFinset_eq (u.map normalize) (c.map normalize)

/-- C3: single-answer verification is invariant under case and surrounding
whitespace changes of the candidate and of the stored correct answers, and
it is true iff the normalized candidate equals some normalized entry of the
correct-answer set; verify("Paris ") equals verify("paris") when a correct
answer is "Paris". -/
theorem verify_single_normalization :
    (∀ (u v : String) (correct correct2 : List String),
      normalize u = normalize v →
      correct.map normalize = correct2.map normalize →
      verifySingle u correct = verifySingle v correct2)
    ∧ (∀ (u : String) (correct : List String),
        verifySingle u correct = true ↔ ∃ c ∈ correct, normalize c = normalize u)
    ∧ verifySingle "Paris " ["Paris"] = verifySingle "paris" ["Paris"]
    ∧ verifySingle "Paris " ["Paris"] = true := by
  have hmap : ∀ (u : String) (correct : List String),
      verifySingle u correct = (correct.map normalize).any (· == normalize u) := by
    intro u correct
    unfold verifySingle
    rw [List.any_map]
    rfl
  refine ⟨?_, ?_, by decide, by decide⟩
  · intro u v c c2 hu hc
    rw [hmap, hmap, hu, hc]
  · intro u correct
    unfold verifySingle
    rw [List.any_eq_true]
    simp only [beq_iff_eq]

/-- Witness for C3 at the concrete inputs of the spec example. -/
theorem verify_single_normalization_witness :
    verifySingle "Paris " ["Paris"] = verifySingle "paris" ["Paris"] :=
  verify_single_normalization.1 "Paris " "paris" ["Paris"] ["Paris"]
    (by decide) (by decide)

/-- Lowercasing leaves a whitespace character unchanged. -/
theorem lowerChar_of_ws (c : Char) (h : isWsChar c = true) : lowerChar c = c := by
  simp only [isWsChar, Bool.or_eq_true, beq_iff_eq] at h
  rcases h with ((h | h) | h) | h <;> subst h <;> rfl

/-- Wrapping a character list is the empty string exactly for the empty
list. -/
theorem mkStr_eq_empty_iff (l : List Char) : String.mk l = "" ↔ l = [] := by
  constructor
  · intro h
    exact congrArg String.data h
  · intro h
    rw [h]

/-- Trimming yields the empty list exactly on all-whitespace input. -/
theorem trimChars_eq_nil_iff (cs : List Char) :
    trimChars cs = [] ↔ ∀ c ∈ cs, isWsChar c = true := by
  unfold trimChars
  rw [List.reverse_eq_nil_iff, List.dropWhile_eq_nil_iff]
  constructor
  · intro h c hc
    have hsplit := List.takeWhile_append_dropWhile isWsChar cs
    rw [← hsplit] at hc
    rcases List.mem_append.mp hc with htk | hdp
    · exact List.mem_takeWhile_imp htk
    · exact h c (List.mem_reverse.mpr hdp)
  · intro h c hc
    have : c ∈ cs.dropWhile isWsChar := List.mem_reverse.mp hc
    have hsplit := List.takeWhile_append_dropWhile isWsChar cs
    have : c ∈ cs := by
      rw [← hsplit]
      exact List.mem_append.mpr (Or.inr this)
    exact h c this

/-- The trim test of the creation handler in terms of the name characters. -/
theorem jsTrim_beq_empty_iff (s : String) :
    (jsTrim s == "") = true ↔ ∀ c ∈ s.data, isWsChar c = true := by
  rw [beq_iff_eq]
  unfold jsTrim
  rw [mkStr_eq_empty_iff]
  exact trimChars_eq_nil_iff s.data

/-- A name lowercasing to "emydan" is not all whitespace, so the empty-name
branch is not taken for it. -/
theorem jsTrim_not_empty_of_lower_emydan (s : String)
    (h : jsToLowerCase s = "emydan") : (jsTrim s == "") = false := by
  rw [Bool.eq_false_iff]
  intro htrim
  have hall : ∀ c ∈ s.data, isWsChar c = true := (jsTrim_beq_empty_iff s).mp htrim
  have hmap : s.data.map lowerChar = "emydan".data := congrArg String.data h
  have hid : s.data.map lowerChar = s.data := by
    have := List.map_congr_left (l := s.data) (f := lowerChar) (g := id)
      (fun a ha => lowerChar_of_ws a (hall a ha))
    simpa using this
  rw [hid] at hmap
  have he : ('e' : Char) ∈ s.data := by
    rw [hmap]
    decide
  exact absurd (hall 'e' he) (by decide)

/-- C5: a whitespace-only (or empty) creator name is rejected with a 400
carrying the EMPTY_CREATOR_NAME code, a creator name equal to the
placeholder "emydan" compared case-insensitively is rejected with a 400
carrying the distinct DEFAULT_CREATOR_NAME_USED code, and no quiz is
persisted in either case. -/
theorem create_quiz_name_validation :
    (∀ quizData : InsertQuiz,
      (∀ c ∈ quizData.creatorName.data, isWsChar c = true) →
        createQuizHandler quizData =
          .badRequest "Creator name cannot be empty" "EMPTY_CREATOR_NAME" ∧
        persistedQuizzes (createQuizHandler quizData) = [])
    ∧ (∀ quizData : InsertQuiz,
        jsToLowerCase quizData.creatorName = "emydan" →
          createQuizHandler quizData =
            .badRequest
              "Cannot use default creator name. Please enter your own name."
              "DEFAULT_CREATOR_NAME_USED" ∧
          persistedQuizzes (createQuizHandler quizData) = [])
    ∧ "EMPTY_CREATOR_NAME" ≠ "DEFAULT_CREATOR_NAME_USED" := by
  refine ⟨?_, ?_, by decide⟩
  · intro quizData hws
    have hcond : (jsTrim quizData.creatorName == "") = true :=
      (jsTrim_beq_empty_iff quizData.creatorName).mpr hws
    constructor
    · unfold createQuizHandler
      rw [hcond]
      rfl
    · unfold createQuizHandler
      rw [hcond]
      rfl
  · intro quizData hlow
    have hcond : (jsTrim quizData.creatorName == "") = false :=
      jsTrim_not_empty_of_lower_emydan quizData.creatorName hlow
    have hcond2 : (jsToLowerCase quizData.creatorName == "emydan") = true :=
      beq_iff_eq.mpr hlow
    constructor
    · unfold createQuizHandler
      rw [hcond, hcond2]
      rfl
    · unfold createQuizHandler
      rw [hcond, hcond2]
      rfl

/-- Witness for C5: the whitespace-only name "   " and the cased placeholder
"EmyDan" at a concrete quiz body. -/
theorem create_quiz_name_validation_witness :
    (∀ c ∈ ("   " : String).data, isWsChar c = true) ∧
    (createQuizHandler ⟨1, "   ", "code1", "slug1", "token1"⟩ =
        .badRequest "Creator name cannot be empty" "EMPTY_CREATOR_NAME" ∧
      persistedQuizzes (createQuizHandler ⟨1, "   ", "code1", "slug1", "token1"⟩) = []) ∧
    jsToLowerCase "EmyDan" = "emydan" ∧
    (createQuizHandler ⟨1, "EmyDan", "code1", "slug1", "token1"⟩ =
        .badRequest
          "Cannot use default creator name. Please enter your own name."
          "DEFAULT_CREATOR_NAME_USED" ∧
      persistedQuizzes (createQuizHandler ⟨1, "EmyDan", "code1", "slug1", "token1"⟩) = []) :=
  ⟨by decide,
   create_quiz_name_validation.1 ⟨1, "   ", "code1", "slug1", "token1"⟩ (by decide),
   by decide,
   create_quiz_name_validation.2.1 ⟨1, "EmyDan", "code1", "slug1", "token1"⟩ (by decide)⟩

/-- The not-found / expired / live dispatch properties of `respondQuiz`. -/
theorem respondQuiz_dispatch (found : Option Quiz) (now : Nat) :
    (found = none → respondQuiz found now = notFoundQuizResp) ∧
    (∀ q, found = some q → isQuizExpired q now = true →
      respondQuiz found now = expiredQuizResp) ∧
    (∀ q, found = some q → isQuizExpired q now = false →
      (respondQuiz found now).status = 200) ∧
    ((respondQuiz found now).status = 410 ↔
      ∃ q, found = some q ∧ isQuizExpired q now = true) ∧
    ((respondQuiz found now).status = 404 ↔ found = none) := by
  cases found with
  | none =>
    refine ⟨fun _ => rfl, by simp, by simp, ?_, ?_⟩
    · simp [respondQuiz, notFoundQuizResp]
    · simp [respondQuiz, notFoundQuizResp]
  | some q =>
    by_cases he : isQuizExpired q now = true
    · refine ⟨by simp, ?_, ?_, ?_, ?_⟩
      · intro q2 hq2 _
        cases hq2
        simp [respondQuiz, he]
      · intro q2 hq2 hlive
        cases hq2
        rw [he] at hlive
        cases hlive
      · simp [respondQuiz, he, expiredQuizResp]
      · simp [respondQuiz, he, expiredQuizResp]
    · rw [Bool.not_eq_true] at he
      refine ⟨by simp, ?_, ?_, ?_, ?_⟩
      · intro q2 hq2 hexp
        cases hq2
        rw [he] at hexp
        cases hexp
      · intro q2 hq2 _
        cases hq2
        simp [respondQuiz, he]
      · simp [respondQuiz, he]
      · simp [respondQuiz, he]

/-- C4: every quiz read path (by access code, by slug, by dashboard token,
and by id once the id parsed) answers 404 when the key matches no quiz and
410 when it matches a quiz with now later than createdAt plus 7 days; the
410 body carries the machine-readable expired flag and a detail containing
the policy text "available for 7 days after creation", its message differs
from the 404 message, and the statuses 410 and 404 each occur exactly in
their own case. -/
theorem quiz_read_expiry_dispatch :
    ReadDispatchOk getQuizByAccessCodeHandler
      (fun store key => store.find? (fun q => q.accessCode == key)) ∧
    ReadDispatchOk getQuizBySlugHandler slugLookup ∧
    ReadDispatchOk getQuizByDashboardHandler
      (fun store key => store.find? (fun q => q.dashboardToken == key)) ∧
    (∀ (param : String) (qid : Int), jsParseInt param = some qid →
      ReadDispatchOk (fun store _ now => getQuizByIdHandler store param now)
        (fun store _ => store.find? (fun q => q.id == qid))) ∧
    expiredQuizResp.status = 410 ∧
    expiredQuizResp.expired = true ∧
    containsText (expiredQuizResp.detail.getD "")
      "available for 7 days after creation" = true ∧
    expiredQuizResp.message ≠ notFoundQuizResp.message ∧
    notFoundQuizResp.status = 404 := by
  refine ⟨?_, ?_, ?_, ?_, rfl, rfl, by decide, by decide, rfl⟩
  · intro store key now
    exact respondQuiz_dispatch (store.find? (fun q => q.accessCode == key)) now
  · intro store key now
    exact respondQuiz_dispatch (slugLookup store key) now
  · intro store key now
    exact respondQuiz_dispatch (store.find? (fun q => q.dashboardToken == key)) now
  · intro param qid hparse store key now
    have hred : getQuizByIdHandler store param now =
        respondQuiz (store.find? (fun q => q.id == qid)) now := by
      unfold getQuizByIdHandler
      rw [hparse]
    dsimp only
    rw [hred]
    exact respondQuiz_dispatch (store.find? (fun q => q.id == qid)) now

/-- Witness for C4: a store holding one quiz created at time 0, read by
access code just past the seven-day mark (answering the 410 body), and an
empty store answering the 404 body. -/
theorem quiz_read_expiry_dispatch_witness :
    ([Quiz.mk 1 1 "Alice" "CODE" "slug" "tok" 0].find?
        (fun q => q.accessCode == "CODE") =
      some (Quiz.mk 1 1 "Alice" "CODE" "slug" "tok" 0)) ∧
    isQuizExpired (Quiz.mk 1 1 "Alice" "CODE" "slug" "tok" 0)
      (sevenDaysMs + 1) = true ∧
    getQuizByAccessCodeHandler [Quiz.mk 1 1 "Alice" "CODE" "slug" "tok" 0]
      "CODE" (sevenDaysMs + 1) = expiredQuizResp ∧
    getQuizByAccessCodeHandler [] "CODE" 0 = notFoundQuizResp :=
  ⟨rfl, by decide,
   (quiz_read_expiry_dispatch.1 [Quiz.mk 1 1 "Alice" "CODE" "slug" "tok" 0]
      "CODE" (sevenDaysMs + 1)).2.1
     (Quiz.mk 1 1 "Alice" "CODE" "slug" "tok" 0) rfl (by decide),
   (quiz_read_expiry_dispatch.1 [] "CODE" 0).1 rfl⟩

/-- When the dynamic map over the stored elements succeeds, every element
was a string. -/
theorem mapNormalizeDyn_ok_all_strings (elems : List JsonValue)
    (l : List String) (h : mapNormalizeDyn elems = .ok l) :
    ∃ strs : List String, elems = strs.map JsonValue.jstr := by
  induction elems generalizing l with
  | nil => exact ⟨[], rfl⟩
  | cons v vs ih =>
    cases v with
    | jstr s =>
      rw [mapNormalizeDyn] at h
      simp only [jsNormalizeDyn] at h
      cases hrest : mapNormalizeDyn vs with
      | error e => rw [hrest] at h; cases h
      | ok rest =>
        obtain ⟨strs, hstrs⟩ := ih rest hrest
        exact ⟨s :: strs, by rw [hstrs]; rfl⟩
    | jarr es =>
      rw [mapNormalizeDyn] at h
      simp only [jsNormalizeDyn] at h
      cases h
    | jother =>
      rw [mapNormalizeDyn] at h
      simp only [jsNormalizeDyn] at h
      cases h

/-- When the dynamic `some` scan over the stored elements returns false,
it reached the end, so every element was a string. -/
theorem someMatchesDyn_false_all_strings (n : String) (elems : List JsonValue)
    (h : someMatchesDyn n elems = .ok false) :
    ∃ strs : List String, elems = strs.map JsonValue.jstr := by
  induction elems with
  | nil => exact ⟨[], rfl⟩
  | cons v vs ih =>
    cases v with
    | jstr s =>
      rw [someMatchesDyn] at h
      simp only [jsNormalizeDyn] at h
      by_cases hm : (normalize s == n) = true
      · rw [if_pos hm] at h
        cases h
      · rw [if_neg hm] at h
        obtain ⟨strs, hstrs⟩ := ih h
        exact ⟨s :: strs, by rw [hstrs]; rfl⟩
    | jarr es =>
      rw [someMatchesDyn] at h
      simp only [jsNormalizeDyn] at h
      cases h
    | jother =>
      rw [someMatchesDyn] at h
      simp only [jsNormalizeDyn] at h
      cases h

/-- C6: a stored correct-answer field whose JSON text fails to parse makes
the verification operation answer the distinct 500 failure, at the
verification core and through the whole route handler, and an isCorrect
false response can only ever arise from a well-formed stored list of
strings — a malformed stored answer set is never counted as an incorrect
answer. -/
theorem verify_malformed_stored_answers :
    (∀ ans : UserAnswer, verifyAnswerCore .parseError ans = .serverError)
    ∧ (∀ (stored : StoredField) (ans : UserAnswer),
        verifyAnswerCore stored ans = .ok false →
          ∃ strs : List String, stored = .parsed (.jarr (strs.map .jstr)))
    ∧ (∀ (store : List Question) (param : String) (ans : UserAnswer)
        (qid : Int) (q : Question),
        jsParseInt param = some qid →
        store.find? (fun q2 => q2.id == qid) = some q →
        q.correctAnswers = .parseError →
        verifyHandler store param ans = .serverError) := by
  refine ⟨fun _ => rfl, ?_, ?_⟩
  · intro stored ans h
    cases stored with
    | parseError => cases h
    | parsed v =>
      cases ans with
      | multi xs =>
        cases v with
        | jstr s => cases h
        | jother => cases h
        | jarr elems =>
          rw [verifyAnswerCore] at h
          cases hm : mapNormalizeDyn elems with
          | error e => rw [hm] at h; cases h
          | ok l =>
            obtain ⟨strs, hstrs⟩ := mapNormalizeDyn_ok_all_strings elems l hm
            exact ⟨strs, by rw [hstrs]⟩
      | single s =>
        cases v with
        | jstr s2 => cases h
        | jother => cases h
        | jarr elems =>
          rw [verifyAnswerCore] at h
          cases hm : someMatchesDyn (normalize s) elems with
          | error e => rw [hm] at h; cases h
          | ok b =>
            rw [hm] at h
            cases h
            obtain ⟨strs, hstrs⟩ := someMatchesDyn_false_all_strings _ elems hm
            exact ⟨strs, by rw [hstrs]⟩
  · intro store param ans qid q hparse hfind hmal
    unfold verifyHandler
    rw [hparse]
    dsimp only
    rw [hfind]
    dsimp only
    rw [hmal]
    rfl

/-- Witness for C6: a question whose stored correct answers do not parse,
looked up and verified through the handler. -/
theorem verify_malformed_stored_answers_witness :
    jsParseInt "5" = some 5 ∧
    ([Question.mk 5 1 "t" "multiple_choice" "[]" .parseError none 1 none].find?
        (fun q2 => q2.id == (5 : Int)) =
      some (Question.mk 5 1 "t" "multiple_choice" "[]" .parseError none 1 none)) ∧
    verifyHandler [Question.mk 5 1 "t" "multiple_choice" "[]" .parseError none 1 none]
      "5" (.single "x") = .serverError :=
  ⟨by decide, rfl,
   verify_malformed_stored_answers.2.2
     [Question.mk 5 1 "t" "multiple_choice" "[]" .parseError none 1 none]
     "5" (.single "x") 5
     (Question.mk 5 1 "t" "multiple_choice" "[]" .parseError none 1 none)
     (by decide) rfl rfl⟩

/-- The dynamic map over a list of string values succeeds with their
normalizations. -/
theorem mapNormalizeDyn_strings (strs : List String) :
    mapNormalizeDyn (strs.map .jstr) = .ok (strs.map normalize) := by
  induction strs with
  | nil => rfl
  | cons s ss ih =>
    simp only [List.map_cons, mapNormalizeDyn, jsNormalizeDyn, ih]

/-- The dynamic `some` scan over a list of string values computes the
match-any comparison. -/
theorem someMatchesDyn_strings (n : String) (strs : List String) :
    someMatchesDyn n (strs.map .jstr) =
      .ok (strs.any (fun c => normalize c == n)) := by
  induction strs with
  | nil => rfl
  | cons s ss ih =>
    simp only [List.map_cons, someMatchesDyn, jsNormalizeDyn, List.any_cons]
    by_cases hm : (normalize s == n) = true
    · rw [if_pos hm, hm, Bool.true_or]
    · rw [if_neg hm, ih, Bool.not_eq_true] at *
      rw [hm, Bool.false_or]

/-- C10: the comparison mode is selected solely by the shape of the
submitted answer payload — the stored type field of the question never changes
the verification outcome, an array candidate is always judged by exact
normalized set equality against the full correct-answer set (in particular
against a multiple_choice question), and a string candidate is always
judged by matching any correct entry. -/
theorem verify_mode_ignores_question_type :
    (∀ (store : List Question) (retype : Question → String) (param : String)
      (ans : UserAnswer),
      verifyHandler (store.map (fun q => { q with type := retype q })) param ans =
        verifyHandler store param ans)
    ∧ (∀ (q : Question) (strs xs : List String),
        q.type = "multiple_choice" →
        q.correctAnswers = .parsed (.jarr (strs.map .jstr)) →
        verifyAnswerCore q.correctAnswers (.multi xs) = .ok (verifyMulti xs strs))
    ∧ (∀ (q : Question) (strs : List String) (s : String),
        q.correctAnswers = .parsed (.jarr (strs.map .jstr)) →
        verifyAnswerCore q.correctAnswers (.single s) =
          .ok (verifySingle s strs)) := by
  refine ⟨?_, ?_, ?_⟩
  · intro store retype param ans
    unfold verifyHandler
    cases hp : jsParseInt param with
    | none => rfl
    | some qid =>
      dsimp only
      rw [List.find?_map]
      have hcomp : ((fun q : Question => q.id == qid) ∘
          (fun q => { q with type := retype q })) =
          (fun q : Question => q.id == qid) := rfl
      rw [hcomp]
      cases hf : store.find? (fun q => q.id == qid) with
      | none => rfl
      | some q => rfl
  · intro q strs xs _ hca
    rw [hca]
    simp only [verifyAnswerCore, mapNormalizeDyn_strings, verifyMulti]
  · intro q strs s hca
    rw [hca]
    simp only [verifyAnswerCore, someMatchesDyn_strings, verifySingle]

/-- Witness for C10: an array candidate against a multiple_choice question
storing two correct answers, and a string candidate against the same set. -/
theorem verify_mode_ignores_question_type_witness :
    verifyAnswerCore (.parsed (.jarr (["A", "B"].map .jstr))) (.multi ["B", "A"]) =
      .ok (verifyMulti ["B", "A"] ["A", "B"]) ∧
    verifyAnswerCore (.parsed (.jarr (["A", "B"].map .jstr))) (.single "a") =
      .ok (verifySingle "a" ["A", "B"]) :=
  ⟨verify_mode_ignores_question_type.2.1
     (Question.mk 1 1 "t" "multiple_choice" "[]"
       (.parsed (.jarr (["A", "B"].map .jstr))) none 1 none)
     ["A", "B"] ["B", "A"] rfl rfl,
   verify_mode_ignores_question_type.2.2
     (Question.mk 1 1 "t" "multiple_choice" "[]"
       (.parsed (.jarr (["A", "B"].map .jstr))) none 1 none)
     ["A", "B"] "a" rfl⟩

/-- Counterexample to C9: the id path segment "123abc" is not a numeric
string, yet JavaScript parseInt reads its numeric prefix 123, so the
handler proceeds to the lookup and answers 404 on an empty store — not
the 400 the claim requires for every non-numeric id. -/
theorem quiz_id_nonnumeric_cex :
    ("123abc".data.all (fun c => decide ('0' ≤ c ∧ c ≤ '9')) = false) ∧
    jsParseInt "123abc" = some 123 ∧
    (getQuizByIdHandler [] "123abc" 0).status = 404 ∧
    ¬(getQuizByIdHandler [] "123abc" 0).status = 400 := by
  refine ⟨by decide, by decide, rfl, by decide⟩

/-- C9 as amended: GET /quizzes/:id answers 400 exactly when parseInt
yields NaN on the id segment (no leading integer after optional
whitespace and sign); any segment with a parseable numeric prefix —
including non-numeric strings such as "123abc" — proceeds to the lookup
under its prefix value. -/
theorem quiz_id_400_iff_parse_nan :
    ∀ (store : List Quiz) (param : String) (now : Nat),
      ((getQuizByIdHandler store param now).status = 400 ↔
        jsParseInt param = none) ∧
      (∀ qid : Int, jsParseInt param = some qid →
        getQuizByIdHandler store param now =
          respondQuiz (store.find? (fun q => q.id == qid)) now) := by
  intro store param now
  cases hp : jsParseInt param with
  | none =>
    refine ⟨by simp [getQuizByIdHandler, hp], ?_⟩
    intro qid hq
    cases hq
  | some qid =>
    have hred : getQuizByIdHandler store param now =
        respondQuiz (store.find? (fun q => q.id == qid)) now := by
      unfold getQuizByIdHandler
      rw [hp]
    refine ⟨?_, ?_⟩
    · rw [hred]
      constructor
      · intro h400
        exfalso
        cases hf : store.find? (fun q => q.id == qid) with
        | none =>
          rw [hf] at h400
          simp [respondQuiz, notFoundQuizResp] at h400
        | some q =>
          rw [hf] at h400
          by_cases he : isQuizExpired q now = true
          · simp [respondQuiz, he, expiredQuizResp] at h400
          · rw [Bool.not_eq_true] at he
            simp [respondQuiz, he] at h400
      · intro h
        cases h
    · intro qid2 hq2
      cases hq2
      exact hred

/-- Witness for C9 as amended: the numeric segment "7" proceeds to the
lookup. -/
theorem quiz_id_400_iff_parse_nan_witness :
    jsParseInt "7" = some 7 ∧
    getQuizByIdHandler [] "7" 0 =
      respondQuiz (List.find? (fun q => q.id == (7 : Int)) []) 0 :=
  ⟨by decide, (quiz_id_400_iff_parse_nan [] "7" 0).2 7 (by decide)⟩

/-- Counterexample to C1: a client-claimed score of 999 on a 5-question
quiz is stored as 999 — the recording path performs no recomputation or
clamping, so the stored score is not at most 5. -/
theorem record_attempt_score_cex :
    (recordAttemptHandler ⟨1, 1, "Taker", 999, 5, "[]"⟩ 1 0).score = 999 ∧
    ¬((recordAttemptHandler ⟨1, 1, "Taker", 999, 5, "[]"⟩ 1 0).score ≤ 5) :=
  ⟨rfl, by decide⟩

/-- C1 as amended: POST /quiz-attempts stores the client-submitted score
verbatim (after schema validation, which accepts any integer); no
server-side answer verification or clamping happens on the recording
path — answers are verified per question through the separate verify
endpoint, and the clamp to the question count happens client-side before
submission. -/
theorem record_attempt_stores_submitted_score :
    ∀ (attemptData : InsertQuizAttempt) (nextId : Int) (now : Nat),
      (recordAttemptHandler attemptData nextId now).score = attemptData.score ∧
      (recordAttemptHandler attemptData nextId now).totalQuestions =
        attemptData.totalQuestions ∧
      (recordAttemptHandler attemptData nextId now).answers =
        attemptData.answers :=
  fun _ _ _ => ⟨rfl, rfl, rfl⟩

/-- C8: every sweep cycle returns one of the structured results and never
throws past the scheduler boundary; with healthy database calls the result
is never a failure whatever the image step does; an image-cleanup failure
changes neither the resulting table state nor the result, so the deletes
still happen; and with no expired quizzes the cycle exits early with the
count-zero success, leaving the state untouched and performing no
operations. -/
theorem sweep_structured_result :
    (∀ (imageFault : Bool) (dbFault : Option DbFault) (now : Nat)
      (st : StoreState),
      (cleanupExpiredQuizzes imageFault dbFault now st).result = .successNone ∨
      (∃ n ids,
        (cleanupExpiredQuizzes imageFault dbFault now st).result =
          .success n ids) ∨
      (∃ e,
        (cleanupExpiredQuizzes imageFault dbFault now st).result = .failure e))
    ∧ (∀ (imageFault : Bool) (now : Nat) (st : StoreState) (e : String),
        (cleanupExpiredQuizzes imageFault none now st).result ≠ .failure e)
    ∧ (∀ (dbFault : Option DbFault) (now : Nat) (st : StoreState),
        (cleanupExpiredQuizzes true dbFault now st).state =
          (cleanupExpiredQuizzes false dbFault now st).state ∧
        (cleanupExpiredQuizzes true dbFault now st).result =
          (cleanupExpiredQuizzes false dbFault now st).result)
    ∧ (∀ (imageFault : Bool) (now : Nat) (st : StoreState),
        (∀ q ∈ st.quizzes, ¬(q.createdAt < retentionCutoff now)) →
        cleanupExpiredQuizzes imageFault none now st =
          ⟨st, .successNone, []⟩) := by
  refine ⟨?_, ?_, ?_, ?_⟩
  · intro imageFault dbFault now st
    cases hr : (cleanupExpiredQuizzes imageFault dbFault now st).result with
    | successNone => exact Or.inl rfl
    | success n ids => exact Or.inr (Or.inl ⟨n, ids, rfl⟩)
    | failure e => exact Or.inr (Or.inr ⟨e, rfl⟩)
  · intro imageFault now st e
    by_cases hE :
        (st.quizzes.filter (fun q => q.createdAt < retentionCutoff now)).isEmpty = true
    · simp [cleanupExpiredQuizzes, hE]
    · rw [Bool.not_eq_true] at hE
      simp [cleanupExpiredQuizzes, hE]
  · intro dbFault now st
    by_cases hE :
        (st.quizzes.filter (fun q => q.createdAt < retentionCutoff now)).isEmpty = true
    · rcases dbFault with _ | f
      · simp [cleanupExpiredQuizzes, hE]
      · rcases f <;> simp [cleanupExpiredQuizzes, hE]
    · rw [Bool.not_eq_true] at hE
      rcases dbFault with _ | f
      · simp [cleanupExpiredQuizzes, hE]
      · rcases f <;> simp [cleanupExpiredQuizzes, hE]
  · intro imageFault now st hnone
    have hfilter :
        st.quizzes.filter (fun q => q.createdAt < retentionCutoff now) = [] := by
      rw [List.filter_eq_nil_iff]
      intro a ha
      simpa using hnone a ha
    simp [cleanupExpiredQuizzes, hfilter]

/-- Witness for C8: a store holding one quiz created at the current
instant; the cycle is a count-zero no-op. -/
theorem sweep_structured_result_witness :
    (∀ q ∈ (StoreState.mk [Quiz.mk 1 1 "A" "c" "s" "t" 0] [] []).quizzes,
      ¬(q.createdAt < retentionCutoff 0)) ∧
    cleanupExpiredQuizzes false none 0 (StoreState.mk [Quiz.mk 1 1 "A" "c" "s" "t" 0] [] []) =
      ⟨StoreState.mk [Quiz.mk 1 1 "A" "c" "s" "t" 0] [] [], .successNone, []⟩ :=
  ⟨by decide,
   sweep_structured_result.2.2.2 false 0
     (StoreState.mk [Quiz.mk 1 1 "A" "c" "s" "t" 0] [] []) (by decide)⟩

/-- C7: one healthy sweep cycle deletes exactly the quizzes created before
now minus 7 days together with all of their questions and attempts —
deleting attempts, then questions, then quizzes, all scoped to the
collected expired ids — and leaves every quiz created within the last 7
days, and all of its children, in place. -/
theorem sweep_deletes_exactly_expired :
    ∀ (imageFault : Bool) (now : Nat) (st : StoreState),
      (st.quizzes.map (fun q => q.id)).Nodup →
      ((cleanupExpiredQuizzes imageFault none now st).state.quizzes =
        st.quizzes.filter (fun q => !(decide (q.createdAt < retentionCutoff now)))) ∧
      (∀ qu ∈ st.questions,
        (qu ∈ (cleanupExpiredQuizzes imageFault none now st).state.questions ↔
          ¬∃ q ∈ st.quizzes,
            q.createdAt < retentionCutoff now ∧ q.id = qu.quizId)) ∧
      (∀ qu ∈ (cleanupExpiredQuizzes imageFault none now st).state.questions,
        qu ∈ st.questions) ∧
      (∀ a ∈ st.attempts,
        (a ∈ (cleanupExpiredQuizzes imageFault none now st).state.attempts ↔
          ¬∃ q ∈ st.quizzes,
            q.createdAt < retentionCutoff now ∧ q.id = a.quizId)) ∧
      (∀ a ∈ (cleanupExpiredQuizzes imageFault none now st).state.attempts,
        a ∈ st.attempts) ∧
      (st.quizzes.filter (fun q => q.createdAt < retentionCutoff now) ≠ [] →
        (cleanupExpiredQuizzes imageFault none now st).trace =
          [CleanupStep.imageCleanup
            ((st.quizzes.filter (fun q => q.createdAt < retentionCutoff now)).map
              (fun q => q.id)) (!imageFault),
           CleanupStep.deleteAttempts
            ((st.quizzes.filter (fun q => q.createdAt < retentionCutoff now)).map
              (fun q => q.id)),
           CleanupStep.deleteQuestions
            ((st.quizzes.filter (fun q => q.createdAt < retentionCutoff now)).map
              (fun q => q.id)),
           CleanupStep.deleteQuizzes
            ((st.quizzes.filter (fun q => q.createdAt < retentionCutoff now)).map
              (fun q => q.id))]) := by
  intro imageFault now st hnodup
  by_cases hE :
      st.quizzes.filter (fun q => q.createdAt < retentionCutoff now) = []
  · have hred : cleanupExpiredQuizzes imageFault none now st =
        ⟨st, .successNone, []⟩ := by
      simp [cleanupExpiredQuizzes, hE]
    have hnoexp : ∀ q ∈ st.quizzes, ¬(q.createdAt < retentionCutoff now) := by
      intro q hq
      have := List.filter_eq_nil_iff.mp hE q hq
      simpa using this
    rw [hred]
    refine ⟨?_, ?_, ?_, ?_, ?_, fun hne => absurd hE hne⟩
    · symm
      rw [List.filter_eq_self]
      intro a ha
      simp [hnoexp a ha]
    · intro qu hqu
      constructor
      · intro _
        rintro ⟨q, hq, hexp, _⟩
        exact hnoexp q hq hexp
      · intro _
        exact hqu
    · intro qu hqu
      exact hqu
    · intro a ha
      constructor
      · intro _
        rintro ⟨q, hq, hexp, _⟩
        exact hnoexp q hq hexp
      · intro _
        exact ha
    · intro a ha
      exact ha
  · have hEfalse :
        (st.quizzes.filter (fun q => q.createdAt < retentionCutoff now)).isEmpty
          = false := List.isEmpty_eq_false.mpr hE
    have hcontains : ∀ x : Int,
        ((st.quizzes.filter (fun q2 => q2.createdAt < retentionCutoff now)).map
            (fun q2 => q2.id)).contains x = true ↔
          ∃ q ∈ st.quizzes, q.createdAt < retentionCutoff now ∧ q.id = x := by
      intro x
      constructor
      · intro h
        obtain ⟨q, hqmem, hqid⟩ := List.mem_map.mp (List.elem_iff.mp h)
        have hq := List.mem_filter.mp hqmem
        exact ⟨q, hq.1, of_decide_eq_true hq.2, hqid⟩
      · rintro ⟨q, hq, hexp, hid⟩
        exact List.elem_iff.mpr
          (List.mem_map.mpr ⟨q, List.mem_filter.mpr ⟨hq, decide_eq_true hexp⟩, hid⟩)
    have hred : cleanupExpiredQuizzes imageFault none now st =
        ⟨⟨st.quizzes.filter (fun q =>
            !(((st.quizzes.filter (fun q2 => q2.createdAt < retentionCutoff now)).map
              (fun q2 => q2.id)).contains q.id)),
          st.questions.filter (fun qu =>
            !(((st.quizzes.filter (fun q2 => q2.createdAt < retentionCutoff now)).map
              (fun q2 => q2.id)).contains qu.quizId)),
          st.attempts.filter (fun a =>
            !(((st.quizzes.filter (fun q2 => q2.createdAt < retentionCutoff now)).map
              (fun q2 => q2.id)).contains a.quizId))⟩,
         .success
          (st.quizzes.filter (fun q => q.createdAt < retentionCutoff now)).length
          ((st.quizzes.filter (fun q => q.createdAt < retentionCutoff now)).map
            (fun q => q.id)),
         [CleanupStep.imageCleanup
            ((st.quizzes.filter (fun q => q.createdAt < retentionCutoff now)).map
              (fun q => q.id)) (!imageFault),
          CleanupStep.deleteAttempts
            ((st.quizzes.filter (fun q => q.createdAt < retentionCutoff now)).map
              (fun q => q.id)),
          CleanupStep.deleteQuestions
            ((st.quizzes.filter (fun q => q.createdAt < retentionCutoff now)).map
              (fun q => q.id)),
          CleanupStep.deleteQuizzes
            ((st.quizzes.filter (fun q => q.createdAt < retentionCutoff now)).map
              (fun q => q.id))]⟩ := by
      simp [cleanupExpiredQuizzes, hEfalse]
    rw [hred]
    refine ⟨?_, ?_, ?_, ?_, ?_, fun _ => rfl⟩
    · apply List.filter_congr
      intro x hx
      by_cases hexp : x.createdAt < retentionCutoff now
      · rw [decide_eq_true hexp, (hcontains x.id).mpr ⟨x, hx, hexp, rfl⟩]
      · rw [decide_eq_false hexp]
        have hc :
            ((st.quizzes.filter (fun q2 => q2.createdAt < retentionCutoff now)).map
              (fun q2 => q2.id)).contains x.id = false := by
          rw [Bool.eq_false_iff]
          intro hc
          obtain ⟨q2, hq2, hq2exp, hq2id⟩ := (hcontains x.id).mp hc
          have heq : q2 = x :=
            (List.nodup_map_iff_inj_on (List.Nodup.of_map _ hnodup)).mp hnodup
              q2 hq2 x hx hq2id
          rw [heq] at hq2exp
          exact hexp hq2exp
        rw [hc]
    · intro qu hqu
      rw [List.mem_filter]
      constructor
      · rintro ⟨_, hb⟩
        rintro ⟨q, hq, hexp, hid⟩
        rw [(hcontains qu.quizId).mpr ⟨q, hq, hexp, hid⟩] at hb
        cases hb
      · intro hno
        refine ⟨hqu, ?_⟩
        have hc :
            ((st.quizzes.filter (fun q2 => q2.createdAt < retentionCutoff now)).map
              (fun q2 => q2.id)).contains qu.quizId = false := by
          rw [Bool.eq_false_iff]
          intro hc
          exact hno ((hcontains qu.quizId).mp hc)
        rw [hc]
        rfl
    · intro qu hqu
      exact (List.mem_filter.mp hqu).1
    · intro a ha
      rw [List.mem_filter]
      constructor
      · rintro ⟨_, hb⟩
        rintro ⟨q, hq, hexp, hid⟩
        rw [(hcontains a.quizId).mpr ⟨q, hq, hexp, hid⟩] at hb
        cases hb
      · intro hno
        refine ⟨ha, ?_⟩
        have hc :
            ((st.quizzes.filter (fun q2 => q2.createdAt < retentionCutoff now)).map
              (fun q2 => q2.id)).contains a.quizId = false := by
          rw [Bool.eq_false_iff]
          intro hc
          exact hno ((hcontains a.quizId).mp hc)
        rw [hc]
        rfl
    · intro a ha
      exact (List.mem_filter.mp ha).1

/-- Witness for C7: with now at day 9, a quiz created on day 1 (8 days
old) is removed together with its question while a quiz created on day 3
(6 days old) survives one cycle. -/
theorem sweep_deletes_exactly_expired_witness :
    ((StoreState.mk
        [Quiz.mk 1 1 "A" "c1" "s1" "t1" 86400000,
         Quiz.mk 2 1 "B" "c2" "s2" "t2" 259200000]
        [Question.mk 10 1 "q" "multiple_choice" "[]" (.parsed (.jarr [])) none 1 none,
         Question.mk 11 2 "q" "multiple_choice" "[]" (.parsed (.jarr [])) none 1 none]
        [QuizAttempt.mk 20 1 0 "T" 1 1 "[]" 0,
         QuizAttempt.mk 21 2 0 "T" 1 1 "[]" 0]).quizzes.map (fun q => q.id)).Nodup ∧
    (cleanupExpiredQuizzes false none 777600000
        (StoreState.mk
          [Quiz.mk 1 1 "A" "c1" "s1" "t1" 86400000,
           Quiz.mk 2 1 "B" "c2" "s2" "t2" 259200000]
          [Question.mk 10 1 "q" "multiple_choice" "[]" (.parsed (.jarr [])) none 1 none,
           Question.mk 11 2 "q" "multiple_choice" "[]" (.parsed (.jarr [])) none 1 none]
          [QuizAttempt.mk 20 1 0 "T" 1 1 "[]" 0,
           QuizAttempt.mk 21 2 0 "T" 1 1 "[]" 0])).state.quizzes =
      [Quiz.mk 2 1 "B" "c2" "s2" "t2" 259200000] ∧
    ¬(Question.mk 10 1 "q" "multiple_choice" "[]" (.parsed (.jarr [])) none 1 none ∈
      (cleanupExpiredQuizzes false none 777600000
        (StoreState.mk
          [Quiz.mk 1 1 "A" "c1" "s1" "t1" 86400000,
           Quiz.mk 2 1 "B" "c2" "s2" "t2" 259200000]
          [Question.mk 10 1 "q" "multiple_choice" "[]" (.parsed (.jarr [])) none 1 none,
           Question.mk 11 2 "q" "multiple_choice" "[]" (.parsed (.jarr [])) none 1 none]
          [QuizAttempt.mk 20 1 0 "T" 1 1 "[]" 0,
           QuizAttempt.mk 21 2 0 "T" 1 1 "[]" 0])).state.questions) := by
  refine ⟨by decide, ?_, ?_⟩
  · have h := (sweep_deletes_exactly_expired false 777600000
      (StoreState.mk
        [Quiz.mk 1 1 "A" "c1" "s1" "t1" 86400000,
         Quiz.mk 2 1 "B" "c2" "s2" "t2" 259200000]
        [Question.mk 10 1 "q" "multiple_choice" "[]" (.parsed (.jarr [])) none 1 none,
         Question.mk 11 2 "q" "multiple_choice" "[]" (.parsed (.jarr [])) none 1 none]
        [QuizAttempt.mk 20 1 0 "T" 1 1 "[]" 0,
         QuizAttempt.mk 21 2 0 "T" 1 1 "[]" 0]) (by decide)).1
    rw [h]
    rfl
  · intro hmem
    have h := ((sweep_deletes_exactly_expired false 777600000
      (StoreState.mk
        [Quiz.mk 1 1 "A" "c1" "s1" "t1" 86400000,
         Quiz.mk 2 1 "B" "c2" "s2" "t2" 259200000]
        [Question.mk 10 1 "q" "multiple_choice" "[]" (.parsed (.jarr [])) none 1 none,
         Question.mk 11 2 "q" "multiple_choice" "[]" (.parsed (.jarr [])) none 1 none]
        [QuizAttempt.mk 20 1 0 "T" 1 1 "[]" 0,
         QuizAttempt.mk 21 2 0 "T" 1 1 "[]" 0]) (by decide)).2.1
      (Question.mk 10 1 "q" "multiple_choice" "[]" (.parsed (.jarr [])) none 1 none)
      (List.mem_cons_self _ _)).mp hmem
    exact h ⟨Quiz.mk 1 1 "A" "c1" "s1" "t1" 86400000,
      List.mem_cons_self _ _, by decide, rfl⟩

end QzonMe
